import Mathlib

/-!
Verification of the framing and command-dispatch core of the ch32_tinyusb
firmware (src/usb_interface.c), as a shallow embedding in Lean 4.

The embedding covers:
* the frame assembler `vendor_task` (bulk endpoint, byte_index /
  last_packet_time state, SYNC_TIMEOUT_MS resynchronisation), and
* the control-endpoint command dispatcher `tud_vendor_control_xfer_cb`.

Machine integers (`unsigned`, 32 bit on CH32V20x) are modelled as `Nat`
with explicit reduction mod 2^32 where C wraparound matters (the
`now - last_packet_time` subtraction).  Transport and hardware
collaborators (tud_vendor_read, send_fb, set_leds, ...) are modelled as
environment inputs and as records of the calls the code makes.
-/

namespace Ch32TinyUsb

/-! ## Constants (usb_interface.c lines 18-23) -/

def FRAME_SIZE : Nat := 8192

def SYNC_TIMEOUT_MS : Nat := 4

/-- The modulus 2^32 of the C type `unsigned` on this 32-bit target. -/
def U32 : Nat := 4294967296

/-- C unsigned 32-bit subtraction `a - b` (wraps modulo 2^32). -/
def u32sub (a b : Nat) : Nat := (a % U32 + U32 - b % U32) % U32

/-! ## Frame assembler state and step (usb_interface.c lines 25-76)

State of the assembler: the two file-scope statics.  `byte_index` is the
write cursor into the frame, `last_packet_time` the millis() timestamp of
the last poll that saw data. -/

structure AsmState where
  byte_index : Nat
  last_packet_time : Nat
deriving Repr, DecidableEq

/-- One call of `send_fb` made by the assembler: the `byte_index == 0`
flag passed as first argument, the (clamped) length passed as second
argument, and the value of `byte_index` at the moment of the call (the
destination offset the sink will continue at). -/
structure SinkWrite where
  is_first : Bool
  len : Nat
  offset : Nat
deriving Repr, DecidableEq

/-- One execution of the data-available branch of `vendor_task`
(usb_interface.c lines 37-70).  `now` is the value returned by
`millis()`, `count` the value returned by `tud_vendor_read` (0..64).
Returns the new state and the `send_fb` call, if any. -/
def vendor_task_step (s : AsmState) (now count : Nat) :
    AsmState × Option SinkWrite :=
  -- lines 43-45: if the bus was silent for > SYNC_TIMEOUT_MS, resync
  let bi := if u32sub now s.last_packet_time > SYNC_TIMEOUT_MS then 0
            else s.byte_index
  -- line 47: last_packet_time = now (unconditionally)
  -- lines 54-56: read; count <= 0 returns (count is unsigned, so == 0)
  if count = 0 then (⟨bi, now⟩, none)
  else if bi < FRAME_SIZE then
    -- lines 63-69: clamp to the remaining frame space and forward
    let c := min count (FRAME_SIZE - bi)
    (⟨bi + c, now⟩, some ⟨bi == 0, c, bi⟩)
  else
    -- frame already complete: drop the bytes (lines 72-74)
    (⟨bi, now⟩, none)

/-- Full `vendor_task` (lines 28-76): guarded by `tud_vendor_mounted`
and `tud_vendor_available`; no state change and no sink call when either
guard is false. -/
def vendor_task (mounted avail : Bool) (s : AsmState) (now count : Nat) :
    AsmState × Option SinkWrite :=
  if mounted && avail then vendor_task_step s now count else (s, none)

/-- One delivered transport chunk: the `millis()` value at the poll that
consumes it and the number of bytes `tud_vendor_read` returns. -/
structure Chunk where
  now : Nat
  count : Nat
deriving Repr, DecidableEq

/-- Run the assembler over a sequence of data-available polls, collecting
the `send_fb` calls in order. -/
def runTrace : AsmState → List Chunk → AsmState × List SinkWrite
  | s, [] => (s, [])
  | s, c :: cs =>
    let r := vendor_task_step s c.now c.count
    let rest := runTrace r.1 cs
    (rest.1, r.2.toList ++ rest.2)

/-- All chunks of the list arrive within `SYNC_TIMEOUT_MS` of the
previous activity timestamp `t` (so none of them triggers a resync). -/
def gapsLe : Nat → List Chunk → Bool
  | _, [] => true
  | t, c :: cs => decide (u32sub c.now t ≤ SYNC_TIMEOUT_MS) && gapsLe c.now cs

/-- Consecutive inter-chunk gaps are at most `SYNC_TIMEOUT_MS`; the gap
between the initial state and the first chunk is unconstrained. -/
def interGapsLe : List Chunk → Bool
  | [] => true
  | c :: cs => gapsLe c.now cs

/-- Total number of bytes forwarded to the hardware sink. -/
def totalLen (ws : List SinkWrite) : Nat := (ws.map SinkWrite.len).sum

/-- Number of sink writes tagged `is_first`. -/
def countFirst (ws : List SinkWrite) : Nat :=
  (ws.filter (fun w => w.is_first)).length

/-- The assembler state at system start: both statics initialised to 0
(usb_interface.c lines 25-26). -/
def initState : AsmState := ⟨0, 0⟩

/-! ## Command dispatcher (usb_interface.c lines 78-142) -/

def CMD_RESET : Nat := 0x10
def CMD_VERSION : Nat := 0x11
def CMD_BTNS_ENC : Nat := 0x20
def CMD_IO_LEDS : Nat := 0x21
def CMD_OLED_BRIGHTNESS : Nat := 0x31
def CMD_OLED_INVERTED : Nat := 0x32

/-- The control-transfer stages TinyUSB invokes the callback with; the
code only distinguishes `CONTROL_STAGE_SETUP` from the rest. -/
inductive Stage where
  | setup
  | data
  | ack
deriving Repr, DecidableEq

/-- Truncation of an integer to the C type `int8_t` (twos complement). -/
def toInt8 (x : Int) : Int := (x + 128) % 256 - 128

/-- State of the hardware collaborators the dispatcher touches.  Writes
record the argument the code passes to the accessor; `encoder_acc` is
the accumulated delta of the encoder.

Modelled from the spec for the collaborators whose sources are not under
src/ (ui_board / ssd1322): `set_leds`, `set_brightness`, `set_inverted`
latch their argument; `get_button_flags` returns the current button
bitmask; `get_encoder_ticks(true)` is `input.encoder_delta_and_clear`,
returning the accumulated delta and clearing it (read-and-clear);
`ui_init` re-initialises the board (counted here). -/
structure HwState where
  leds : Nat
  brightness : Nat
  inverted : Nat
  encoder_acc : Int
  buttons : Nat
  resets : Nat
deriving Repr, DecidableEq

/-- Modelled from the spec: `input.encoder_delta_and_clear() -> i8`
(`get_encoder_ticks(true)`, ui_board.c, not under src/): return the
accumulated delta and clear the accumulator as a side effect. -/
def get_encoder_ticks_clear (hw : HwState) : Int × HwState :=
  (hw.encoder_acc, { hw with encoder_acc := 0 })

/-- Modelled from the spec: an interrupt-driven encoder tick adds to the
accumulated delta. -/
def encoderTick (hw : HwState) (d : Int) : HwState :=
  { hw with encoder_acc := hw.encoder_acc + d }

/-- A call to one of the reply primitives of the transport. -/
inductive TransportCall where
  /-- Call of `tud_control_status`: acknowledge with no data. -/
  | controlStatus
  /-- Call of `tud_control_xfer`: reply with a data payload (list of bytes). -/
  | controlXfer (payload : List Int)
deriving Repr, DecidableEq

/-- A hardware side effect performed by a dispatcher branch. -/
inductive Effect where
  | uiInit
  | setLeds (v : Nat)
  | readButtons
  | encoderConsume
  | setBrightness (v : Nat)
  | setInverted (v : Nat)
deriving Repr, DecidableEq

/-- Result of one invocation of the control callback: the new hardware
state, the C return value (`false` = STALL the request), the transport
reply calls made, and the hardware side effects performed, in order. -/
structure CtlResult where
  hw : HwState
  ret : Bool
  calls : List TransportCall
  effects : List Effect
deriving Repr, DecidableEq

/-- The firmware version string, `GIT_REV`, defaulting to "?" (byte
0x3f) when the build does not define it (usb_interface.c lines 91-95). -/
def fw_version : List Int := [0x3f]

/-- The control callback `tud_vendor_control_xfer_cb` (usb_interface.c
lines 101-142).
`bRequest` is the `uint8_t` command id, `wValue` the `uint16_t`
parameter.  In the embedding the successful `tud_control_status` /
`tud_control_xfer` return value is `true`. -/
def tud_vendor_control_xfer_cb (stage : Stage) (bRequest wValue : Nat)
    (hw : HwState) : CtlResult :=
  if stage = Stage.setup then
    if bRequest = CMD_RESET then
      { hw := { hw with resets := hw.resets + 1 }, ret := true,
        calls := [.controlStatus], effects := [.uiInit] }
    else if bRequest = CMD_VERSION then
      { hw := hw, ret := true,
        calls := [.controlXfer fw_version], effects := [] }
    else if bRequest = CMD_IO_LEDS then
      { hw := { hw with leds := wValue }, ret := true,
        calls := [.controlStatus], effects := [.setLeds wValue] }
    else if bRequest = CMD_BTNS_ENC then
      -- packet.button_flags (u8), packet.encoder_delta (i8); the
      -- encoder read consumes the accumulated delta
      let d := (get_encoder_ticks_clear hw).1
      { hw := (get_encoder_ticks_clear hw).2, ret := true,
        calls := [.controlXfer [Int.ofNat (hw.buttons % 256), toInt8 d]],
        effects := [.readButtons, .encoderConsume] }
    else if bRequest = CMD_OLED_BRIGHTNESS then
      -- set_brightness(MIN(request->wValue, 16))
      { hw := { hw with brightness := min wValue 16 }, ret := true,
        calls := [.controlStatus], effects := [.setBrightness (min wValue 16)] }
    else if bRequest = CMD_OLED_INVERTED then
      { hw := { hw with inverted := wValue }, ret := true,
        calls := [.controlStatus], effects := [.setInverted wValue] }
    else
      -- unknown RPC: STALL, no side effect, no reply
      { hw := hw, ret := false, calls := [], effects := [] }
  else
    -- non-setup stages: nothing to do, report success
    { hw := hw, ret := true, calls := [], effects := [] }

/-- Number of transport outcomes of one callback invocation: each reply
primitive call counts one, and returning `false` (STALL) counts one. -/
def numOutcomes (r : CtlResult) : Nat :=
  r.calls.length + (if r.ret then 0 else 1)

/-- A concrete hardware state, for witnesses. -/
def hw0 : HwState := ⟨0, 0, 0, 0, 3, 0⟩

/-- A concrete trace of 128 chunks of 64 bytes, one millisecond apart,
for witnesses. -/
def testChunks : List Chunk := (List.range 128).map fun i => ⟨100 + i, 64⟩

/-! ## Basic step lemmas -/

theorem vendor_task_step_byte_index_le (s : AsmState) (now count : Nat)
    (h : s.byte_index ≤ FRAME_SIZE) :
    (vendor_task_step s now count).1.byte_index ≤ FRAME_SIZE := by
  simp only [vendor_task_step]
  split_ifs <;> simp_all
  omega

theorem runTrace_byte_index_le (cs : List Chunk) (s : AsmState)
    (h : s.byte_index ≤ FRAME_SIZE) :
    (runTrace s cs).1.byte_index ≤ FRAME_SIZE := by
  induction cs generalizing s with
  | nil => simpa [runTrace] using h
  | cons c cs ih =>
    simp only [runTrace]
    exact ih _ (vendor_task_step_byte_index_le s c.now c.count h)

/-- Without a resync (gap ≤ SYNC_TIMEOUT_MS), a step advances
`byte_index` by exactly the number of bytes it forwards. -/
theorem vendor_task_step_no_reset (s : AsmState) (now count : Nat)
    (hgap : u32sub now s.last_packet_time ≤ SYNC_TIMEOUT_MS) :
    (vendor_task_step s now count).1.byte_index =
      s.byte_index + totalLen (vendor_task_step s now count).2.toList ∧
    (vendor_task_step s now count).1.last_packet_time = now := by
  unfold vendor_task_step
  have hns : ¬ (u32sub now s.last_packet_time > SYNC_TIMEOUT_MS) := by omega
  dsimp only
  rw [if_neg hns]
  split
  · simp [totalLen]
  · split <;> simp [totalLen]

theorem runTrace_no_reset (cs : List Chunk) (s : AsmState)
    (hgap : gapsLe s.last_packet_time cs = true) :
    (runTrace s cs).1.byte_index = s.byte_index + totalLen (runTrace s cs).2 := by
  induction cs generalizing s with
  | nil => simp [runTrace, totalLen]
  | cons c cs ih =>
    simp only [gapsLe, Bool.and_eq_true, decide_eq_true_eq] at hgap
    obtain ⟨h1, h2⟩ := hgap
    obtain ⟨hb, ht⟩ := vendor_task_step_no_reset s c.now c.count h1
    simp only [runTrace]
    have h2' : gapsLe (vendor_task_step s c.now c.count).1.last_packet_time cs = true := by
      rw [ht]; exact h2
    rw [ih _ h2', hb]
    simp [totalLen]
    omega

/-- Without a resync and with room for the whole chunk, a step forwards
the chunk unclamped and advances the cursor by its length. -/
theorem vendor_task_step_write (s : AsmState) (now count : Nat)
    (hgap : u32sub now s.last_packet_time ≤ SYNC_TIMEOUT_MS)
    (hcount : count ≠ 0)
    (hroom : s.byte_index + count ≤ FRAME_SIZE) :
    vendor_task_step s now count =
      (⟨s.byte_index + count, now⟩, some ⟨s.byte_index == 0, count, s.byte_index⟩) := by
  have hns : ¬ (u32sub now s.last_packet_time > SYNC_TIMEOUT_MS) := by omega
  have hlt : s.byte_index < FRAME_SIZE := by omega
  have hmin : min count (FRAME_SIZE - s.byte_index) = count := by omega
  simp [vendor_task_step, hns, hcount, hlt, hmin]

/-- From cursor 0, a nonempty chunk of at most `FRAME_SIZE` bytes is
forwarded whole with `is_first = true`, whether or not a resync fires. -/
theorem vendor_task_step_from_zero (t now count : Nat) (hcount : count ≠ 0)
    (hcle : count ≤ FRAME_SIZE) :
    vendor_task_step ⟨0, t⟩ now count = (⟨count, now⟩, some ⟨true, count, 0⟩) := by
  have hF : FRAME_SIZE = 8192 := rfl
  have hmin : min count (FRAME_SIZE - 0) = count := by omega
  simp [vendor_task_step, hcount, hmin, FRAME_SIZE]
  omega

/-- Every sink write is clamped to the space remaining in the frame. -/
theorem vendor_task_step_clamped (s : AsmState) (now count : Nat) (w : SinkWrite)
    (hw : (vendor_task_step s now count).2 = some w) :
    w.len = min count (FRAME_SIZE - w.offset) ∧ w.offset + w.len ≤ FRAME_SIZE := by
  have hF : FRAME_SIZE = 8192 := rfl
  simp only [vendor_task_step] at hw
  split_ifs at hw <;>
    first
      | exact Option.noConfusion hw
      | (cases hw; exact ⟨rfl, by dsimp; omega⟩)

/-- From cursor 0, a nonempty chunk is forwarded (clamped to the frame)
with `is_first = true`, whether or not a resync fires. -/
theorem vendor_task_step_zero_write (t now count : Nat) (hcount : count ≠ 0) :
    vendor_task_step ⟨0, t⟩ now count =
      (⟨min count FRAME_SIZE, now⟩, some ⟨true, min count FRAME_SIZE, 0⟩) := by
  simp [vendor_task_step, hcount, FRAME_SIZE]

/-- Mid-frame (cursor nonzero), a gap-bounded step never emits an
`is_first` write and never returns the cursor to 0. -/
theorem vendor_task_step_midframe (s : AsmState) (now count : Nat)
    (hne : s.byte_index ≠ 0)
    (hgap : u32sub now s.last_packet_time ≤ SYNC_TIMEOUT_MS) :
    (∀ w ∈ (vendor_task_step s now count).2.toList, w.is_first = false) ∧
    (vendor_task_step s now count).1.byte_index ≠ 0 := by
  have hns : ¬ (u32sub now s.last_packet_time > SYNC_TIMEOUT_MS) := by omega
  simp only [vendor_task_step, if_neg hns]
  split_ifs with h1 h2
  · simpa using hne
  · constructor
    · intro w hw
      simp only [Option.toList_some, List.mem_singleton] at hw
      rw [hw]
      simpa using hne
    · dsimp only
      omega
  · simpa using hne

/-- Mid-frame, a whole gap-bounded run emits no `is_first` write. -/
theorem runTrace_midframe_not_first (cs : List Chunk) (s : AsmState)
    (hne : s.byte_index ≠ 0) (hgaps : gapsLe s.last_packet_time cs = true) :
    ∀ w ∈ (runTrace s cs).2, w.is_first = false := by
  induction cs generalizing s with
  | nil => simp [runTrace]
  | cons c cs ih =>
    simp only [gapsLe, Bool.and_eq_true, decide_eq_true_eq] at hgaps
    obtain ⟨h1, h2⟩ := hgaps
    obtain ⟨hstep, hne'⟩ := vendor_task_step_midframe s c.now c.count hne h1
    have ht := (vendor_task_step_no_reset s c.now c.count h1).2
    simp only [runTrace]
    intro w hw
    rw [List.mem_append] at hw
    rcases hw with hw | hw
    · exact hstep w hw
    · refine ih _ hne' ?_ w hw
      rw [ht]
      exact h2

/-- From cursor 0, a gap-bounded run tags exactly its head write (if
any) with `is_first`. -/
theorem runTrace_from_zero_first (cs : List Chunk) (s : AsmState)
    (h0 : s.byte_index = 0) (hgaps : gapsLe s.last_packet_time cs = true) :
    (∀ w ∈ ((runTrace s cs).2).tail, w.is_first = false) ∧
    (∀ w ∈ ((runTrace s cs).2).head?, w.is_first = true) := by
  induction cs generalizing s with
  | nil => simp [runTrace]
  | cons c cs ih =>
    obtain ⟨b, t⟩ := s
    simp only at h0
    subst h0
    simp only [gapsLe, Bool.and_eq_true, decide_eq_true_eq] at hgaps
    obtain ⟨h1, h2⟩ := hgaps
    by_cases hc : c.count = 0
    · have hstep : vendor_task_step ⟨0, t⟩ c.now c.count = (⟨0, c.now⟩, none) := by
        simp [vendor_task_step, hc]
      simp only [runTrace, hstep, Option.toList_none, List.nil_append]
      exact ih ⟨0, c.now⟩ rfl h2
    · have hstep := vendor_task_step_zero_write t c.now c.count hc
      have hne : min c.count FRAME_SIZE ≠ 0 := by
        have hF : FRAME_SIZE = 8192 := rfl
        omega
      have hrest := runTrace_midframe_not_first cs ⟨min c.count FRAME_SIZE, c.now⟩
        hne h2
      simp only [runTrace, hstep, Option.toList_some]
      exact ⟨fun w hw => hrest w (by simpa using hw), by simp⟩

/-- Every emitted sink write has `is_first = true` iff it lands at
offset 0. -/
theorem vendor_task_step_first_iff (s : AsmState) (now count : Nat)
    (w : SinkWrite) (hw : (vendor_task_step s now count).2 = some w) :
    w.is_first = true ↔ w.offset = 0 := by
  simp only [vendor_task_step] at hw
  split_ifs at hw <;>
    first
      | exact Option.noConfusion hw
      | (cases hw; simp)

/-! ## Claim theorems -/

/-- Claim C1: for every sequence of poll() invocations and every chunk,
`byte_index` never exceeds `FRAME_SIZE`; a chunk crossing the frame
boundary is clamped to `min(bytes_read, FRAME_SIZE - write_offset)` (so
every forwarded slice fits in the frame), and within one frame (a
gap-bounded run starting at offset 0) the cumulative bytes forwarded to
the sink never exceed `FRAME_SIZE`. -/
theorem C1_write_offset_bounded (s : AsmState) (cs : List Chunk)
    (hinv : s.byte_index ≤ FRAME_SIZE) :
    (runTrace s cs).1.byte_index ≤ FRAME_SIZE ∧
    (∀ now count w, (vendor_task_step s now count).2 = some w →
      w.len = min count (FRAME_SIZE - w.offset) ∧ w.offset + w.len ≤ FRAME_SIZE) ∧
    (s.byte_index = 0 → gapsLe s.last_packet_time cs = true →
      totalLen (runTrace s cs).2 ≤ FRAME_SIZE) := by
  refine ⟨runTrace_byte_index_le cs s hinv, ?_, ?_⟩
  · intro now count w hw
    exact vendor_task_step_clamped s now count w hw
  · intro h0 hgaps
    have h := runTrace_no_reset cs s hgaps
    have h2 := runTrace_byte_index_le cs s hinv
    omega

/-- Claim C1 witness. -/
theorem C1_write_offset_bounded_witness :
    (runTrace initState [⟨1, 64⟩]).1.byte_index ≤ FRAME_SIZE ∧
    (∀ now count w, (vendor_task_step initState now count).2 = some w →
      w.len = min count (FRAME_SIZE - w.offset) ∧ w.offset + w.len ≤ FRAME_SIZE) ∧
    (initState.byte_index = 0 → gapsLe initState.last_packet_time [⟨1, 64⟩] = true →
      totalLen (runTrace initState [⟨1, 64⟩]).2 ≤ FRAME_SIZE) :=
  C1_write_offset_bounded initState [⟨1, 64⟩] (by decide)

/-- Claim C2: if the elapsed time since `last_packet_time` (computed as
32-bit unsigned subtraction) strictly exceeds `SYNC_TIMEOUT_MS`, the
poll resets `byte_index` to 0 before writing, so the chunk (if any) is
forwarded with `is_first = true` at offset 0, regardless of the prior
`byte_index`. -/
theorem C2_timeout_resyncs (s : AsmState) (now count : Nat)
    (hgap : u32sub now s.last_packet_time > SYNC_TIMEOUT_MS) :
    (vendor_task_step s now count).1.last_packet_time = now ∧
    (count = 0 → (vendor_task_step s now count).1 = ⟨0, now⟩) ∧
    (count ≠ 0 →
      (vendor_task_step s now count).2 = some ⟨true, min count FRAME_SIZE, 0⟩ ∧
      (vendor_task_step s now count).1 = ⟨min count FRAME_SIZE, now⟩) := by
  simp only [vendor_task_step, if_pos hgap]
  refine ⟨?_, ?_, ?_⟩
  · split <;> rfl
  · intro h0; simp [h0]
  · intro h0; simp [h0, FRAME_SIZE]

/-- Claim C2 witness. -/
theorem C2_timeout_resyncs_witness :
    (vendor_task_step ⟨100, 0⟩ 10 64).1.last_packet_time = 10 ∧
    ((64 : Nat) = 0 → (vendor_task_step ⟨100, 0⟩ 10 64).1 = ⟨0, 10⟩) ∧
    ((64 : Nat) ≠ 0 →
      (vendor_task_step ⟨100, 0⟩ 10 64).2 = some ⟨true, min 64 FRAME_SIZE, 0⟩ ∧
      (vendor_task_step ⟨100, 0⟩ 10 64).1 = ⟨min 64 FRAME_SIZE, 10⟩) :=
  C2_timeout_resyncs ⟨100, 0⟩ 10 64 (by decide)

/-- Claim C7: a chunk arriving while `byte_index = FRAME_SIZE` within
the timeout is dropped: no sink write, no state change other than
`last_packet_time := now`. -/
theorem C7_full_frame_drops (s : AsmState) (now count : Nat)
    (hfull : s.byte_index = FRAME_SIZE)
    (hgap : u32sub now s.last_packet_time ≤ SYNC_TIMEOUT_MS) :
    vendor_task_step s now count = (⟨FRAME_SIZE, now⟩, none) := by
  have hns : ¬ (u32sub now s.last_packet_time > SYNC_TIMEOUT_MS) := by omega
  have hnlt : ¬ (s.byte_index < FRAME_SIZE) := by omega
  simp [vendor_task_step, hns, hnlt, hfull]

/-- Claim C7 witness. -/
theorem C7_full_frame_drops_witness :
    vendor_task_step ⟨FRAME_SIZE, 20⟩ 22 64 = (⟨FRAME_SIZE, 22⟩, none) :=
  C7_full_frame_drops ⟨FRAME_SIZE, 20⟩ 22 64 (by decide) (by decide)

/-- Claim C10: the elapsed-time test uses unsigned 32-bit subtraction,
so for true timestamps `tl ≤ tn` with a true gap below 2^32 ms the
comparison against `SYNC_TIMEOUT_MS` decides correctly even when the
millisecond counter wraps modulo 2^32; a gap of exactly
`SYNC_TIMEOUT_MS` does not trigger a resync (strict inequality). -/
theorem C10_u32_gap_correct (tl tn : Nat) (hle : tl ≤ tn)
    (hlt : tn - tl < U32) :
    u32sub (tn % U32) (tl % U32) = tn - tl ∧
    (u32sub (tn % U32) (tl % U32) > SYNC_TIMEOUT_MS ↔ tn - tl > SYNC_TIMEOUT_MS) ∧
    (tn - tl = SYNC_TIMEOUT_MS → ∀ b,
      (vendor_task_step ⟨b, tl % U32⟩ (tn % U32) 0).1 = ⟨b, tn % U32⟩) := by
  have heq : u32sub (tn % U32) (tl % U32) = tn - tl := by
    simp only [u32sub, U32] at *
    omega
  refine ⟨heq, by omega, ?_⟩
  intro hgap b
  have hns : ¬ (u32sub (tn % U32) (tl % U32) > SYNC_TIMEOUT_MS) := by
    simp [SYNC_TIMEOUT_MS] at *; omega
  simp [vendor_task_step, hns]

/-- Claim C10 witness: the counter wraps between the two polls (true
times 2^32 - 2 and 2^32 + 1, stored as 4294967294 and 1). -/
theorem C10_u32_gap_correct_witness :
    u32sub (4294967297 % U32) (4294967294 % U32) = 4294967297 - 4294967294 ∧
    (u32sub (4294967297 % U32) (4294967294 % U32) > SYNC_TIMEOUT_MS ↔
      4294967297 - 4294967294 > SYNC_TIMEOUT_MS) ∧
    (4294967297 - 4294967294 = SYNC_TIMEOUT_MS → ∀ b,
      (vendor_task_step ⟨b, 4294967294 % U32⟩ (4294967297 % U32) 0).1 =
        ⟨b, 4294967297 % U32⟩) :=
  C10_u32_gap_correct 4294967294 4294967297 (by norm_num) (by norm_num [U32])

/-- Claim C3: over a gap-bounded run starting at offset 0, the sink
write tagged `is_first = true` occurs exactly once, as the first write
of the run; a mid-frame (cursor nonzero) gap-bounded step never produces an
`is_first` write, and any `is_first` write lands at offset 0. -/
theorem C3_is_first_exactly_once (s : AsmState) (cs : List Chunk)
    (h0 : s.byte_index = 0) (hgaps : gapsLe s.last_packet_time cs = true) :
    ((runTrace s cs).2 ≠ [] → countFirst (runTrace s cs).2 = 1 ∧
      ∀ w ∈ ((runTrace s cs).2).head?, w.is_first = true) ∧
    (∀ s' now count w, s'.byte_index ≠ 0 →
      u32sub now s'.last_packet_time ≤ SYNC_TIMEOUT_MS →
      (vendor_task_step s' now count).2 = some w → w.is_first = false) ∧
    (∀ s' now count w, (vendor_task_step s' now count).2 = some w →
      (w.is_first = true ↔ w.offset = 0)) := by
  obtain ⟨htl, hhd⟩ := runTrace_from_zero_first cs s h0 hgaps
  refine ⟨?_, ?_, ?_⟩
  · intro hne
    rcases hlist : (runTrace s cs).2 with _ | ⟨w, ws⟩
    · exact absurd hlist hne
    · rw [hlist] at htl hhd
      have hw : w.is_first = true := hhd w (by simp)
      have hws : ∀ v ∈ ws, v.is_first = false := by simpa using htl
      constructor
      · simp only [countFirst, List.filter_cons, hw, if_pos, List.length_cons]
        have : ws.filter (fun v => v.is_first) = [] := by
          rw [List.filter_eq_nil_iff]
          intro v hv
          simp [hws v hv]
        simp [this]
      · exact hhd
  · intro s' now count w hne hgap hw
    have := (vendor_task_step_midframe s' now count hne hgap).1
    exact this w (by simp [hw])
  · exact fun s' now count w hw => vendor_task_step_first_iff s' now count w hw

/-- Claim C3 witness. -/
theorem C3_is_first_exactly_once_witness :
    ((runTrace initState [⟨2, 64⟩, ⟨3, 64⟩]).2 ≠ [] →
      countFirst (runTrace initState [⟨2, 64⟩, ⟨3, 64⟩]).2 = 1 ∧
      ∀ w ∈ ((runTrace initState [⟨2, 64⟩, ⟨3, 64⟩]).2).head?, w.is_first = true) ∧
    (∀ s' now count w, s'.byte_index ≠ 0 →
      u32sub now s'.last_packet_time ≤ SYNC_TIMEOUT_MS →
      (vendor_task_step s' now count).2 = some w → w.is_first = false) ∧
    (∀ s' now count w, (vendor_task_step s' now count).2 = some w →
      (w.is_first = true ↔ w.offset = 0)) :=
  C3_is_first_exactly_once initState [⟨2, 64⟩, ⟨3, 64⟩] (by decide) (by decide)

/-- A gap-bounded run of 64-byte chunks starting at a cursor that is a
multiple of 64 and fits in the frame forwards every byte: the cursor
advances by 64 per chunk and the forwarded total is 64 per chunk. -/
theorem runTrace_chunks64 (cs : List Chunk) (k t : Nat)
    (hcount : ∀ c ∈ cs, c.count = 64)
    (hgaps : gapsLe t cs = true)
    (hk : 64 * k + 64 * cs.length ≤ FRAME_SIZE) :
    (runTrace ⟨64 * k, t⟩ cs).1.byte_index = 64 * (k + cs.length) ∧
    totalLen (runTrace ⟨64 * k, t⟩ cs).2 = 64 * cs.length := by
  have hF : FRAME_SIZE = 8192 := rfl
  induction cs generalizing k t with
  | nil => simp [runTrace, totalLen]
  | cons c cs ih =>
    simp only [gapsLe, Bool.and_eq_true, decide_eq_true_eq] at hgaps
    obtain ⟨h1, h2⟩ := hgaps
    have hc : c.count = 64 := hcount c (by simp)
    simp only [List.length_cons] at hk
    have hstep : vendor_task_step ⟨64 * k, t⟩ c.now 64 =
        (⟨64 * k + 64, c.now⟩, some ⟨64 * k == 0, 64, 64 * k⟩) := by
      have h := vendor_task_step_write ⟨64 * k, t⟩ c.now 64 h1 (by omega)
        (by show 64 * k + 64 ≤ FRAME_SIZE; omega)
      simpa using h
    have hrec := ih (k + 1) c.now (fun d hd => hcount d (by simp [hd]))
      h2 (by omega)
    have h64 : 64 * (k + 1) = 64 * k + 64 := by ring
    rw [h64] at hrec
    simp only [runTrace, hc, hstep, Option.toList_some, List.singleton_append,
      List.length_cons, totalLen, List.map_cons, List.sum_cons]
    simp only [totalLen] at hrec
    rw [hrec.1, hrec.2]
    constructor <;> ring

/-- Claim C8: from cursor 0, delivering exactly `FRAME_SIZE` bytes as
128 chunks of 64 bytes with all inter-chunk gaps within the timeout
yields `byte_index = FRAME_SIZE` and a forwarded total of exactly 8192
bytes. -/
theorem C8_full_frame_delivery (t0 : Nat) (cs : List Chunk)
    (hlen : cs.length = 128)
    (hcount : ∀ c ∈ cs, c.count = 64)
    (hgaps : interGapsLe cs = true) :
    (runTrace ⟨0, t0⟩ cs).1.byte_index = FRAME_SIZE ∧
    totalLen (runTrace ⟨0, t0⟩ cs).2 = 8192 := by
  have hF : FRAME_SIZE = 8192 := rfl
  cases cs with
  | nil => simp at hlen
  | cons c cs =>
    have hc : c.count = 64 := hcount c (by simp)
    have hlen' : cs.length = 127 := by simpa using hlen
    have hstep : vendor_task_step ⟨0, t0⟩ c.now 64 =
        (⟨64, c.now⟩, some ⟨true, 64, 0⟩) :=
      vendor_task_step_from_zero t0 c.now 64 (by omega) (by omega)
    simp only [interGapsLe] at hgaps
    have hrec := runTrace_chunks64 cs 1 c.now
      (fun d hd => hcount d (by simp [hd])) hgaps (by omega)
    rw [hlen'] at hrec
    norm_num at hrec
    simp only [runTrace, hc, hstep, Option.toList_some, List.singleton_append,
      totalLen, List.map_cons, List.sum_cons]
    simp only [totalLen] at hrec
    rw [hrec.1, hrec.2, hF]
    exact ⟨rfl, by norm_num⟩

set_option maxRecDepth 8192 in
/-- Claim C8 witness: 128 chunks of 64 bytes, 1 ms apart. -/
theorem C8_full_frame_delivery_witness :
    (runTrace ⟨0, 50⟩ testChunks).1.byte_index = FRAME_SIZE ∧
    totalLen (runTrace ⟨0, 50⟩ testChunks).2 = 8192 :=
  C8_full_frame_delivery 50 testChunks (by decide) (by decide) (by decide)

/-- Claim C4: any `command_id` outside `{0x10, 0x11, 0x20, 0x21, 0x31,
0x32}` is rejected (the callback returns `false`, the STALL-equivalent,
distinct from every acknowledgment), with no hardware side effect and no
reply payload. -/
theorem C4_unknown_command_rejected (bRequest wValue : Nat) (hw : HwState)
    (hnotin : bRequest ∉ ([CMD_RESET, CMD_VERSION, CMD_BTNS_ENC, CMD_IO_LEDS,
      CMD_OLED_BRIGHTNESS, CMD_OLED_INVERTED] : List Nat)) :
    tud_vendor_control_xfer_cb .setup bRequest wValue hw =
      { hw := hw, ret := false, calls := [], effects := [] } := by
  simp only [List.mem_cons, List.not_mem_nil, or_false, not_or] at hnotin
  obtain ⟨h10, h11, h20, h21, h31, h32⟩ := hnotin
  simp [tud_vendor_control_xfer_cb, h10, h11, h20, h21, h31, h32]

/-- Claim C4 witness: command 0x30, absent from the dispatch table. -/
theorem C4_unknown_command_rejected_witness :
    tud_vendor_control_xfer_cb .setup 0x30 0 hw0 =
      { hw := hw0, ret := false, calls := [], effects := [] } :=
  C4_unknown_command_rejected 0x30 0 hw0 (by decide)

/-- Claim C5: command 0x20 replies with the 2-byte record
`{button_flags, encoder_delta}` and consumes the accumulated encoder
delta exactly once per request: after a first dispatch the accumulator
is 0; with one tick between dispatches the next dispatch reports delta
1, and a further dispatch with no tick reports delta 0. -/
theorem C5_encoder_delta_consumed (hw : HwState) (wValue : Nat) :
    (tud_vendor_control_xfer_cb .setup CMD_BTNS_ENC wValue hw).hw.encoder_acc = 0 ∧
    (tud_vendor_control_xfer_cb .setup CMD_BTNS_ENC wValue
        (encoderTick (tud_vendor_control_xfer_cb .setup CMD_BTNS_ENC wValue hw).hw 1)).calls
      = [.controlXfer [Int.ofNat (hw.buttons % 256), 1]] ∧
    (tud_vendor_control_xfer_cb .setup CMD_BTNS_ENC wValue
        (tud_vendor_control_xfer_cb .setup CMD_BTNS_ENC wValue
          (encoderTick (tud_vendor_control_xfer_cb .setup CMD_BTNS_ENC wValue hw).hw 1)).hw).calls
      = [.controlXfer [Int.ofNat (hw.buttons % 256), 0]] ∧
    (∀ p, (tud_vendor_control_xfer_cb .setup CMD_BTNS_ENC wValue hw).calls
      = [.controlXfer p] → p.length = 2) := by
  have hne : ¬ ((0x20 : Nat) = 0x10) := by norm_num
  have hne2 : ¬ ((0x20 : Nat) = 0x11) := by norm_num
  refine ⟨?_, ?_, ?_, ?_⟩ <;>
    simp [tud_vendor_control_xfer_cb, CMD_BTNS_ENC, CMD_RESET, CMD_VERSION,
      CMD_IO_LEDS, get_encoder_ticks_clear, encoderTick, toInt8]

/-- Claim C6: command 0x31 applies `min(wValue, 16)` as the brightness
and acknowledges (never rejects); in particular `wValue = 255` applies
exactly 16. -/
theorem C6_brightness_clamped (wValue : Nat) (hw : HwState) :
    (tud_vendor_control_xfer_cb .setup CMD_OLED_BRIGHTNESS wValue hw).hw.brightness
      = min wValue 16 ∧
    (tud_vendor_control_xfer_cb .setup CMD_OLED_BRIGHTNESS wValue hw).effects
      = [.setBrightness (min wValue 16)] ∧
    (tud_vendor_control_xfer_cb .setup CMD_OLED_BRIGHTNESS wValue hw).ret = true ∧
    (tud_vendor_control_xfer_cb .setup CMD_OLED_BRIGHTNESS wValue hw).calls
      = [.controlStatus] ∧
    (tud_vendor_control_xfer_cb .setup CMD_OLED_BRIGHTNESS 255 hw).hw.brightness = 16 := by
  refine ⟨?_, ?_, ?_, ?_, ?_⟩ <;>
    simp [tud_vendor_control_xfer_cb, CMD_OLED_BRIGHTNESS, CMD_RESET,
      CMD_VERSION, CMD_IO_LEDS, CMD_BTNS_ENC]

/-- Claim C9: per inbound control request the dispatcher produces
exactly one transport outcome (acknowledge, reply with payload, or
reject), all in the setup stage; its side-effect list has no duplicate
(each hardware effect is performed exactly once), and every non-setup
stage leaves the hardware untouched, makes no transport call, performs
no effect, and reports success. -/
theorem C9_exactly_one_outcome (stage : Stage) (bRequest wValue : Nat)
    (hw : HwState) :
    numOutcomes (tud_vendor_control_xfer_cb .setup bRequest wValue hw) = 1 ∧
    (tud_vendor_control_xfer_cb .setup bRequest wValue hw).effects.Nodup ∧
    (stage ≠ Stage.setup →
      tud_vendor_control_xfer_cb stage bRequest wValue hw =
        { hw := hw, ret := true, calls := [], effects := [] }) := by
  refine ⟨?_, ?_, ?_⟩
  · simp only [tud_vendor_control_xfer_cb, if_pos rfl]
    split_ifs <;> simp [numOutcomes]
  · simp only [tud_vendor_control_xfer_cb, if_pos rfl]
    split_ifs <;> simp
  · intro hst
    simp [tud_vendor_control_xfer_cb, hst]

/-- Claim C9 witness: version request, observed at the data stage. -/
theorem C9_exactly_one_outcome_witness :
    numOutcomes (tud_vendor_control_xfer_cb .setup 0x11 0 hw0) = 1 ∧
    (tud_vendor_control_xfer_cb .setup 0x11 0 hw0).effects.Nodup ∧
    tud_vendor_control_xfer_cb .data 0x11 0 hw0 =
      { hw := hw0, ret := true, calls := [], effects := [] } :=
  ⟨(C9_exactly_one_outcome .data 0x11 0 hw0).1,
   (C9_exactly_one_outcome .data 0x11 0 hw0).2.1,
   (C9_exactly_one_outcome .data 0x11 0 hw0).2.2 (by decide)⟩

end Ch32TinyUsb
